import Mathlib

/-!
Verification of the Arivu Foods SCM allocation, pricing and alerting services.

The development shallowly embeds the quantity- and price-relevant fragments of
the repository:

* `InventoryService` — the Django FIFO/FEFO allocator (`inventory/services.py`)
  together with `Batch.allocate_quantity` (`inventory/models.py`);
* `BackendService` — the Flask allocator and pricing service
  (`backend/services.py`);
* `Routes` — the Flask order-creation endpoint (`backend/routes.py`);
* `PricingService` — the Django tier / dynamic-rule pricing engine
  (`pricing/services.py`, `pricing/models.py`);
* `AlertService` — the Django expiry alert sweep (`alerts/services.py`).

Money and quantities (SQL decimals / Python floats) are modelled as rationals,
dates and datetimes as integers (days), ORM rows as lists of structures in
query order, and fallible operations as `Option`-valued functions.
-/

/-- Status of a production batch, `Batch.STATUS_CHOICES` in
`inventory/models.py` (the Flask models use the same five states with
capitalised spelling). -/
inductive BatchStatus where
  | received
  | in_stock
  | dispatched
  | expired
  | recalled
deriving DecidableEq

/-- Product master data (`inventory/models.py`, class `Product`); only the
fields the allocation and pricing services read are kept.  `mrp` is the
reference price, validated by `MinValueValidator(0)`. -/
structure Product where
  product_id : Nat
  mrp : ℚ
  shelf_life_days : Nat
deriving DecidableEq

/-- Validator attached to `Product.mrp` (`MinValueValidator(0)`), which admits
a zero reference price. -/
def mrpValidator (m : ℚ) : Bool :=
  decide (0 ≤ m)

/-- Production batch (`inventory/models.py`, class `Batch`). -/
structure Batch where
  batch_id : Nat
  product_id : Nat
  production_date : Int
  expiration_date : Int
  initial_quantity : ℚ
  current_quantity : ℚ
  status : BatchStatus
deriving DecidableEq

/-- Days until expiry of a batch, `Batch.days_until_expiry` computed against a
given value of `timezone.now().date()`. -/
def Batch.days_until_expiry (b : Batch) (today : Int) : Int :=
  b.expiration_date - today

/-- Location-scoped stock record (`inventory/models.py`, class `Inventory`). -/
structure Inventory where
  inventory_id : Nat
  batch_id : Nat
  location : String
  quantity_on_hand : ℚ
  reorder_point : Option ℚ
deriving DecidableEq

/-- Database state shared by the allocation services: the `batches` and
`inventory` tables in query order. -/
structure SState where
  batches : List Batch
  invs : List Inventory
deriving DecidableEq

/-- Allocation method selector; the sources compare the lower-cased `method`
string against `'fifo'` / `'FEFO'`. -/
inductive AllocMethod where
  | fifo
  | fefo
deriving DecidableEq

/-- Ordering used by `order_by('expiration_date')`. -/
def expLE (a b : Batch) : Prop :=
  a.expiration_date ≤ b.expiration_date

instance : DecidableRel expLE := fun a b =>
  inferInstanceAs (Decidable (a.expiration_date ≤ b.expiration_date))

instance : IsTotal Batch expLE :=
  ⟨fun a b => Int.le_total a.expiration_date b.expiration_date⟩

instance : IsTrans Batch expLE :=
  ⟨fun _ _ _ h1 h2 => le_trans h1 h2⟩

/-- Ordering used by `order_by('production_date')`. -/
def prodLE (a b : Batch) : Prop :=
  a.production_date ≤ b.production_date

instance : DecidableRel prodLE := fun a b =>
  inferInstanceAs (Decidable (a.production_date ≤ b.production_date))

namespace InventoryService

/-- Location restriction of the Django batch queries: when a location is
given, the queryset is additionally joined against inventory records at that
location with positive quantity on hand. -/
def locationOk (invs : List Inventory) (loc : Option String) (b : Batch) : Bool :=
  match loc with
  | none => true
  | some l =>
      invs.any fun i =>
        i.batch_id == b.batch_id && i.location == l && decide (0 < i.quantity_on_hand)

/-- Filter of `InventoryService.get_available_batches_fefo`
(`inventory/services.py`): product matches, positive current quantity, status
`in_stock`, and expiration date strictly after today. -/
def fefoEligible (today : Int) (pid : Nat) (b : Batch) : Bool :=
  b.product_id == pid && decide (0 < b.current_quantity) && b.status == .in_stock
    && decide (today < b.expiration_date)

/-- Eligible batches for FEFO allocation, ordered by expiration date
ascending (`InventoryService.get_available_batches_fefo`). -/
def get_available_batches_fefo (today : Int) (pid : Nat) (loc : Option String)
    (st : SState) : List Batch :=
  List.insertionSort expLE
    (st.batches.filter fun b => fefoEligible today pid b && locationOk st.invs loc b)

/-- Filter of `InventoryService.get_available_batches_fifo`: as FEFO but with
no expiry restriction. -/
def fifoEligible (pid : Nat) (b : Batch) : Bool :=
  b.product_id == pid && decide (0 < b.current_quantity) && b.status == .in_stock

/-- Eligible batches for FIFO allocation, ordered by production date
ascending (`InventoryService.get_available_batches_fifo`). -/
def get_available_batches_fifo (pid : Nat) (loc : Option String)
    (st : SState) : List Batch :=
  List.insertionSort prodLE
    (st.batches.filter fun b => fifoEligible pid b && locationOk st.invs loc b)

/-- Greedy allocation walk shared by `allocate_inventory_fifo` and
`allocate_inventory_fefo`: for each batch take
`min(remaining_quantity, batch.current_quantity)` until the requested
quantity is covered or the list is exhausted. -/
def allocate_greedy : ℚ → List Batch → List (Batch × ℚ)
  | _, [] => []
  | remaining, b :: rest =>
    if remaining ≤ 0 then []
    else
      let take := min remaining b.current_quantity
      (b, take) :: allocate_greedy (remaining - take) rest

/-- Total quantity taken by an allocation plan. -/
def sumTaken (l : List (Batch × ℚ)) : ℚ :=
  (l.map Prod.snd).sum

/-- FEFO allocation plan (`InventoryService.allocate_inventory_fefo`). -/
def allocate_inventory_fefo (today : Int) (pid : Nat) (requested : ℚ)
    (loc : Option String) (st : SState) : List (Batch × ℚ) :=
  allocate_greedy requested (get_available_batches_fefo today pid loc st)

/-- FIFO allocation plan (`InventoryService.allocate_inventory_fifo`). -/
def allocate_inventory_fifo (pid : Nat) (requested : ℚ)
    (loc : Option String) (st : SState) : List (Batch × ℚ) :=
  allocate_greedy requested (get_available_batches_fifo pid loc st)

/-- Mutation performed by `Batch.allocate_quantity` (`inventory/models.py`) on
the batch row with the given id: the decrement happens only when
`can_fulfill_quantity` holds, i.e. `current_quantity >= quantity`. -/
def allocate_quantity_row (bid : Nat) (q : ℚ) : List Batch → List Batch
  | [] => []
  | b :: rest =>
    if b.batch_id == bid then
      (if q ≤ b.current_quantity then
        { b with current_quantity := b.current_quantity - q } :: rest
      else b :: rest)
    else b :: allocate_quantity_row bid q rest

/-- Result record of `InventoryService.fulfill_order_item`. -/
structure FulfillResult where
  success : Bool
  allocated_quantity : ℚ
  shortage : ℚ
  allocations : List (Batch × ℚ)
deriving DecidableEq

/-- Fulfilment of one order line (`InventoryService.fulfill_order_item`): plan
with the selected method; if the plan covers less than requested report the
shortage without touching any row, otherwise apply `Batch.allocate_quantity`
for every planned pair.  The function never references the `Inventory`
table, so `st.invs` is returned unchanged on both paths. -/
def fulfill_order_item (today : Int) (pid : Nat) (requested : ℚ)
    (loc : Option String) (method : AllocMethod) (st : SState) :
    FulfillResult × SState :=
  let allocations :=
    match method with
    | .fifo => allocate_inventory_fifo pid requested loc st
    | .fefo => allocate_inventory_fefo today pid requested loc st
  let total := sumTaken allocations
  if total < requested then
    ({ success := false, allocated_quantity := total,
       shortage := requested - total, allocations := allocations }, st)
  else
    ({ success := true, allocated_quantity := total, shortage := 0,
       allocations := allocations },
     { st with
        batches := allocations.foldl
          (fun bs p => allocate_quantity_row p.1.batch_id p.2 bs) st.batches })

/-- Filter of `InventoryService.get_expiring_batches`: expiring within the
look-ahead window but not yet expired, in stock with positive quantity. -/
def expiringFilter (today days_ahead : Int) (b : Batch) : Bool :=
  decide (b.expiration_date ≤ today + days_ahead)
    && decide (today < b.expiration_date)
    && decide (0 < b.current_quantity)
    && b.status == .in_stock

/-- Batches expiring within `days_ahead` days, ordered by expiration date
(`InventoryService.get_expiring_batches`). -/
def get_expiring_batches (today days_ahead : Int) (batches : List Batch) :
    List Batch :=
  List.insertionSort expLE (batches.filter (expiringFilter today days_ahead))

end InventoryService

/-- Pricing tier of the Flask models (`backend/models.py`): a discount band
with minimum and maximum percentage. -/
structure FlaskTier where
  tier_name : String
  min_discount_percentage : ℚ
  max_discount_percentage : ℚ
deriving DecidableEq

/-- Retailer of the Flask models, with an optionally assigned pricing tier. -/
structure FRetailer where
  retailer_id : Nat
  pricing_tier : Option FlaskTier
deriving DecidableEq

namespace BackendService

/-- Near-expiry surcharge discount
(`PricingService._check_batch_discount`, `backend/services.py`): the first
batch of the product expiring within 7 days with stock left determines an
additional 15% or 10% discount. -/
def check_batch_discount (today : Int) (pid : Nat) (batches : List Batch) : ℚ :=
  match batches.find? (fun b =>
      b.product_id == pid && decide (b.expiration_date ≤ today + 7)
        && decide (0 < b.current_quantity)) with
  | none => 0
  | some b =>
    let days_to_expiry := b.expiration_date - today
    if days_to_expiry ≤ 3 then 15
    else if days_to_expiry ≤ 7 then 10
    else 0

/-- Result dictionary of `PricingService.calculate_price`
(`backend/services.py`). -/
structure FlaskPriceResult where
  base_price : ℚ
  discount_percentage : ℚ
  discount_amount : ℚ
  discounted_price : ℚ
  quantity : ℚ
  line_total : ℚ
  has_batch_discount : Bool
deriving DecidableEq

/-- Tier-based pricing of the Flask service
(`PricingService.calculate_price`): a missing retailer or product is an
error; a missing tier falls back to a default 10% discount; with a tier the
discount is the tier minimum below quantity 50, the midpoint between 50 and
100, and the tier maximum from 100 up; a near-expiry batch discount is then
stacked on the already discounted price. -/
def calculate_price (retailer : Option FRetailer) (product : Option Product)
    (quantity : ℚ) (today : Int) (batches : List Batch) :
    Option FlaskPriceResult :=
  match retailer, product with
  | some r, some p =>
    let base_price := p.mrp
    let discount_percentage : ℚ :=
      match r.pricing_tier with
      | none => 10
      | some t =>
        if 100 ≤ quantity then t.max_discount_percentage
        else if 50 ≤ quantity then
          (t.min_discount_percentage + t.max_discount_percentage) / 2
        else t.min_discount_percentage
    let discount_amount := base_price * (discount_percentage / 100)
    let discounted_price := base_price - discount_amount
    let line_total := discounted_price * quantity
    let batch_discount := check_batch_discount today p.product_id batches
    if 0 < batch_discount then
      let additional_discount := discounted_price * (batch_discount / 100)
      some { base_price := base_price,
             discount_percentage := discount_percentage + batch_discount,
             discount_amount := discount_amount,
             discounted_price := discounted_price - additional_discount,
             quantity := quantity,
             line_total := (discounted_price - additional_discount) * quantity,
             has_batch_discount := true }
    else
      some { base_price := base_price,
             discount_percentage := discount_percentage,
             discount_amount := discount_amount,
             discounted_price := discounted_price,
             quantity := quantity,
             line_total := line_total,
             has_batch_discount := false }
  | _, _ => none

/-- Decrement of the batch row with the given id, as performed by
`batch.current_quantity -= take` on an ORM object (row ids are unique, so the
first match is the row). -/
def decBatchRow (bid : Nat) (q : ℚ) : List Batch → List Batch
  | [] => []
  | b :: rest =>
    if b.batch_id == bid then
      { b with current_quantity := b.current_quantity - q } :: rest
    else b :: decBatchRow bid q rest

/-- Decrement of the inventory row with the given `inventory_id`. -/
def decInvRow (iid : Nat) (q : ℚ) : List Inventory → List Inventory
  | [] => []
  | i :: rest =>
    if i.inventory_id == iid then
      { i with quantity_on_hand := i.quantity_on_hand - q } :: rest
    else i :: decInvRow iid q rest

/-- Decrement of the first inventory row for the given batch, as performed on
the result of `Inventory.query.filter_by(batch_id=...).first()`. -/
def decInvFirstForBatch (bid : Nat) (q : ℚ) : List Inventory → List Inventory
  | [] => []
  | i :: rest =>
    if i.batch_id == bid then
      { i with quantity_on_hand := i.quantity_on_hand - q } :: rest
    else i :: decInvFirstForBatch bid q rest

/-- Join of `Batch` and `Inventory` on `batch_id` used by the Flask
`InventoryService.allocate_inventory` query. -/
def flask_join (st : SState) : List (Batch × Inventory) :=
  st.invs.filterMap fun i =>
    (st.batches.find? fun b => b.batch_id == i.batch_id).map fun b => (b, i)

/-- Filter of the Flask `InventoryService.allocate_inventory` query: product
matches, batch status `In Stock`, and positive quantity on hand (note: no
expiry restriction and no check of `Batch.current_quantity`). -/
def flaskAllocFilter (pid : Nat) (bi : Batch × Inventory) : Bool :=
  bi.1.product_id == pid && bi.1.status == .in_stock
    && decide (0 < bi.2.quantity_on_hand)

/-- Ordering of joined rows by batch expiration date (FEFO). -/
def pairExpLE (a b : Batch × Inventory) : Prop :=
  a.1.expiration_date ≤ b.1.expiration_date

instance : DecidableRel pairExpLE := fun a b =>
  inferInstanceAs (Decidable (a.1.expiration_date ≤ b.1.expiration_date))

/-- Ordering of joined rows by batch production date (FIFO). -/
def pairProdLE (a b : Batch × Inventory) : Prop :=
  a.1.production_date ≤ b.1.production_date

instance : DecidableRel pairProdLE := fun a b =>
  inferInstanceAs (Decidable (a.1.production_date ≤ b.1.production_date))

/-- Allocation entry returned by the Flask
`InventoryService.allocate_inventory`. -/
structure FlaskAllocEntry where
  batch_id : Nat
  allocated_quantity : ℚ
deriving DecidableEq

/-- Loop body of the Flask `InventoryService.allocate_inventory`: walk the
joined rows, take `min(inventory.quantity_on_hand, remaining)` from each, and
decrement both the inventory row and the batch row. -/
def flask_alloc_go (st : SState) (remaining : ℚ) :
    List (Batch × Inventory) → List FlaskAllocEntry × SState × ℚ
  | [] => ([], st, remaining)
  | (b, i) :: rest =>
    if remaining ≤ 0 then ([], st, remaining)
    else
      let available_quantity := min i.quantity_on_hand remaining
      if 0 < available_quantity then
        let st' : SState :=
          { batches := decBatchRow b.batch_id available_quantity st.batches,
            invs := decInvRow i.inventory_id available_quantity st.invs }
        let res := flask_alloc_go st' (remaining - available_quantity) rest
        ({ batch_id := b.batch_id, allocated_quantity := available_quantity }
            :: res.1, res.2)
      else
        flask_alloc_go st remaining rest

/-- Flask `InventoryService.allocate_inventory` (`backend/services.py`): on a
full allocation the decrements are committed and the entries returned; on an
empty candidate list or a shortfall the session is rolled back and an empty
list is returned with the state unchanged. -/
def allocate_inventory (pid : Nat) (quantity_needed : ℚ)
    (method : AllocMethod) (st : SState) : List FlaskAllocEntry × SState :=
  let filtered := (flask_join st).filter (flaskAllocFilter pid)
  let available_batches :=
    match method with
    | .fefo => List.insertionSort pairExpLE filtered
    | .fifo => List.insertionSort pairProdLE filtered
  if available_batches.isEmpty then ([], st)
  else
    let res := flask_alloc_go st quantity_needed available_batches
    if !res.1.isEmpty && decide (res.2.2 ≤ 0) then (res.1, res.2.1)
    else ([], st)

end BackendService

namespace Routes

/-- Eligibility filter of the batch query inside `create_order`
(`backend/routes.py`): product matches, status `In Stock`, positive current
quantity (note: no expiry restriction). -/
def routeEligible (pid : Nat) (b : Batch) : Bool :=
  b.product_id == pid && b.status == .in_stock && decide (0 < b.current_quantity)

/-- Ordering used by
`order_by(Batch.expiration_date.asc(), Batch.production_date.asc())`. -/
def expProdLE (a b : Batch) : Prop :=
  a.expiration_date < b.expiration_date
    ∨ (a.expiration_date = b.expiration_date ∧ a.production_date ≤ b.production_date)

instance : DecidableRel expProdLE := fun a b =>
  inferInstanceAs (Decidable (a.expiration_date < b.expiration_date
    ∨ (a.expiration_date = b.expiration_date ∧ a.production_date ≤ b.production_date)))

/-- Snapshot of batch ids eligible for one order line, in FEFO order: the
query is executed once per line item, before the loop mutates the rows. -/
def routeAvailable (pid : Nat) (st : SState) : List Nat :=
  (List.insertionSort expProdLE (st.batches.filter (routeEligible pid))).map
    Batch.batch_id

/-- Lookup of a batch row by id (ORM object identity). -/
def getBatch (bid : Nat) (bs : List Batch) : Option Batch :=
  bs.find? fun b => b.batch_id == bid

/-- Inner loop of `create_order` over the snapshot of available batches for
one line item: read the live batch row, take
`min(remaining_quantity, batch.current_quantity)`, record an order item and
decrement both the batch row and the first inventory row for that batch.
Returns the new state, the remaining quantity and the order items
`(batch_id, quantity)` created for this line. -/
def order_item_go : SState → ℚ → List Nat → SState × ℚ × List (Nat × ℚ)
  | st, remaining, [] => (st, remaining, [])
  | st, remaining, bid :: rest =>
    if remaining ≤ 0 then (st, remaining, [])
    else
      match getBatch bid st.batches with
      | none => order_item_go st remaining rest
      | some b =>
        let take := min remaining b.current_quantity
        let st' : SState :=
          { batches := BackendService.decBatchRow bid take st.batches,
            invs := BackendService.decInvFirstForBatch bid take st.invs }
        let res := order_item_go st' (remaining - take) rest
        (res.1, res.2.1, (bid, take) :: res.2.2)

/-- Line-item loop of `create_order`: each requested `(product_id, quantity)`
is allocated against a fresh snapshot; a line left with a positive remaining
quantity aborts the whole request with an insufficient-inventory error naming
the product. -/
def create_order_go : SState → List (Nat × ℚ) → List (Nat × ℚ) →
    Except Nat (SState × List (Nat × ℚ))
  | st, [], acc => .ok (st, acc)
  | st, (pid, qty) :: rest, acc =>
    let res := order_item_go st qty (routeAvailable pid st)
    if 0 < res.2.1 then .error pid
    else create_order_go res.1 rest (acc ++ res.2.2)

/-- Flask `create_order` endpoint (`backend/routes.py`), quantity-relevant
fragment: on success the session is committed and the mutated state persists
together with the created order items; on a shortfall `db.session.rollback()`
discards every mutation of the call and the pre-call state persists, with
the error naming the product.  (The per-item price fields written alongside
are not modelled; no claim reads them.) -/
def create_order (st : SState) (items : List (Nat × ℚ)) :
    SState × Option Nat × List (Nat × ℚ) :=
  match create_order_go st items [] with
  | .ok (st', its) => (st', none, its)
  | .error pid => (st, some pid, [])

end Routes

/-- Pricing tier of the Django models (`pricing/models.py`): a single default
discount percentage. -/
structure PricingTier where
  tier_name : String
  discount_percentage : ℚ
deriving DecidableEq

/-- Retailer-specific pricing assignment (`pricing/models.py`, class
`RetailerPricing`). -/
structure RetailerPricing where
  retailer_id : Nat
  product_id : Option Nat
  pricing_tier : PricingTier
  custom_discount_percentage : Option ℚ
  custom_price : Option ℚ
  effective_from : Int
  effective_to : Option Int
  is_active : Bool
deriving DecidableEq

/-- Dynamic pricing rule (`pricing/models.py`, class `DynamicPricing`). -/
structure DynamicPricing where
  rule_name : String
  product_id : Option Nat
  retailer_id : Option Nat
  apply_to_expiring_batches : Bool
  expiry_threshold_days : Option Int
  expiry_discount_percentage : Option ℚ
  volume_tier_quantity : Option ℚ
  volume_discount_percentage : Option ℚ
  start_time : Option Int
  end_time : Option Int
  is_active : Bool
  priority : Int
deriving DecidableEq

/-- Python truthiness of an optional numeric field: `None` and `0` are falsy. -/
def truthyQ : Option ℚ → Bool
  | none => false
  | some v => v != 0

/-- Checked division; the sources divide `Decimal` values, which raises on a
zero divisor. -/
def qdiv (a b : ℚ) : Option ℚ :=
  if b = 0 then none else some (a / b)

namespace PricingService

/-- Effective price for a retailer-product assignment
(`RetailerPricing.get_effective_price`): inactive or lapsed assignments keep
the base price; a (truthy) custom price wins outright; otherwise the custom
discount or the tier discount is applied when truthy. -/
def get_effective_price (now : Int) (rp : RetailerPricing) (base_price : ℚ) : ℚ :=
  if !rp.is_active then base_price
  else if (match rp.effective_to with
           | some t => decide (t < now)
           | none => false) then base_price
  else if truthyQ rp.custom_price then rp.custom_price.getD 0
  else
    let discount :=
      if truthyQ rp.custom_discount_percentage then rp.custom_discount_percentage.getD 0
      else rp.pricing_tier.discount_percentage
    if discount != 0 then base_price - base_price * (discount / 100)
    else base_price

/-- Filter of the `RetailerPricing` queries in
`PricingService.get_retailer_price`: retailer matches, product filter
matches, active, effective window contains now. -/
def rpMatches (now : Int) (rid : Nat) (pidFilter : Option Nat)
    (rp : RetailerPricing) : Bool :=
  rp.retailer_id == rid && rp.product_id == pidFilter && rp.is_active
    && decide (rp.effective_from ≤ now)
    && (match rp.effective_to with
        | none => true
        | some t => decide (now < t))

/-- Retailer-pricing row selection of `get_retailer_price`: first the
product-specific assignment, then the general tier assignment. -/
def select_retailer_pricing (now : Int) (rid pid : Nat)
    (rps : List RetailerPricing) : Option RetailerPricing :=
  match rps.find? (rpMatches now rid (some pid)) with
  | some rp => some rp
  | none => rps.find? (rpMatches now rid none)

/-- Rule applicability check (`DynamicPricing.is_applicable`); the product and
retailer arguments are always supplied by `get_retailer_price`, the batch is
optional. -/
def is_applicable (now today : Int) (r : DynamicPricing) (pid rid : Nat)
    (batch : Option Batch) (quantity : ℚ) : Bool :=
  r.is_active
    && !(match r.start_time with
         | some s => decide (now < s)
         | none => false)
    && !(match r.end_time with
         | some e => decide (e < now)
         | none => false)
    && !(match r.product_id with
         | some p => p != pid
         | none => false)
    && !(match r.retailer_id with
         | some x => x != rid
         | none => false)
    && (match batch with
        | some b =>
          if r.apply_to_expiring_batches then
            decide (b.days_until_expiry today ≤ r.expiry_threshold_days.getD 0)
          else true
        | none => true)
    && (if truthyQ r.volume_tier_quantity && quantity != 0 then
          decide (r.volume_tier_quantity.getD 0 ≤ quantity)
        else true)

/-- Discount amount of one rule against the supplied (already discounted)
price (`DynamicPricing.calculate_discount`): an expiry part and a volume part
are each added when their trigger fires. -/
def calculate_discount (now today : Int) (r : DynamicPricing) (base_price : ℚ)
    (pid rid : Nat) (batch : Option Batch) (quantity : ℚ) : ℚ :=
  if !is_applicable now today r pid rid batch quantity then 0
  else
    let expiry_part :=
      if r.apply_to_expiring_batches && truthyQ r.expiry_discount_percentage then
        match batch with
        | some b =>
          if b.days_until_expiry today ≤ r.expiry_threshold_days.getD 0 then
            base_price * (r.expiry_discount_percentage.getD 0 / 100)
          else 0
        | none => 0
      else 0
    let volume_part :=
      if truthyQ r.volume_discount_percentage && quantity != 0
          && truthyQ r.volume_tier_quantity then
        (if r.volume_tier_quantity.getD 0 ≤ quantity then
          base_price * (r.volume_discount_percentage.getD 0 / 100)
        else 0)
      else 0
    expiry_part + volume_part

/-- Filter of the `DynamicPricing` query in `get_retailer_price`: active, and
the product / retailer filters are wildcards or match. -/
def ruleQueryMatches (pid rid : Nat) (r : DynamicPricing) : Bool :=
  r.is_active
    && (match r.product_id with
        | none => true
        | some p => p == pid)
    && (match r.retailer_id with
        | none => true
        | some x => x == rid)

/-- Ordering used by `order_by('-priority')`. -/
def priorityGE (a b : DynamicPricing) : Prop :=
  b.priority ≤ a.priority

instance : DecidableRel priorityGE := fun a b =>
  inferInstanceAs (Decidable (b.priority ≤ a.priority))

/-- Applicable dynamic rules in descending priority order. -/
def applicable_rules (pid rid : Nat) (rules : List DynamicPricing) :
    List DynamicPricing :=
  List.insertionSort priorityGE (rules.filter (ruleQueryMatches pid rid))

/-- One entry of the `applied_discounts` list in the pricing breakdown. -/
structure AppliedDiscount where
  name : String
  discount_amount : ℚ
  discount_percentage : ℚ
deriving DecidableEq

/-- Rule-stacking loop of `get_retailer_price`: each applicable rule's
discount is computed against the current `final_price` and, when positive,
subtracted from it before the next rule is evaluated; the reported
percentage divides by the original base price. -/
def applyRules (now today : Int) (pid rid : Nat) (batch : Option Batch)
    (quantity base_price : ℚ) :
    ℚ → List DynamicPricing → Option (ℚ × List AppliedDiscount)
  | final_price, [] => some (final_price, [])
  | final_price, r :: rest =>
    if is_applicable now today r pid rid batch quantity then
      let discount := calculate_discount now today r final_price pid rid batch quantity
      if 0 < discount then
        match qdiv discount base_price with
        | none => none
        | some pct =>
          match applyRules now today pid rid batch quantity base_price
              (final_price - discount) rest with
          | none => none
          | some (fp, ads) =>
            some (fp, { name := r.rule_name, discount_amount := discount,
                        discount_percentage := pct * 100 } :: ads)
      else applyRules now today pid rid batch quantity base_price final_price rest
    else applyRules now today pid rid batch quantity base_price final_price rest

/-- Tier step of `get_retailer_price`: resolve the retailer-pricing row, apply
it, and report a tier discount entry when the price dropped. -/
def tier_step (now : Int) (base_price : ℚ) (rp? : Option RetailerPricing) :
    Option (ℚ × List AppliedDiscount) :=
  match rp? with
  | none => some (base_price, [])
  | some rp =>
    let final_price := get_effective_price now rp base_price
    let tier_discount := base_price - final_price
    if 0 < tier_discount then
      match qdiv tier_discount base_price with
      | none => none
      | some pct =>
        some (final_price,
          [{ name := rp.pricing_tier.tier_name, discount_amount := tier_discount,
             discount_percentage := pct * 100 }])
    else some (final_price, [])

/-- Pricing breakdown returned by `get_retailer_price`. -/
structure PriceBreakdown where
  base_price : ℚ
  final_price : ℚ
  total_discount : ℚ
  total_discount_percentage : ℚ
  applied_discounts : List AppliedDiscount
deriving DecidableEq

/-- Django `PricingService.get_retailer_price` (`pricing/services.py`): tier
step, then rule stacking, then the summary fields; every exit path divides by
the product's base price when reporting percentages. -/
def get_retailer_price (now today : Int) (rid : Nat) (product : Product)
    (quantity : ℚ) (batch : Option Batch) (rps : List RetailerPricing)
    (rules : List DynamicPricing) : Option PriceBreakdown :=
  let base_price := product.mrp
  match tier_step now base_price
      (select_retailer_pricing now rid product.product_id rps) with
  | none => none
  | some (fp1, ads1) =>
    match applyRules now today product.product_id rid batch quantity base_price
        fp1 (applicable_rules product.product_id rid rules) with
    | none => none
    | some (fp2, ads2) =>
      let total_discount := base_price - fp2
      match qdiv total_discount base_price with
      | none => none
      | some tdp =>
        some { base_price := base_price, final_price := fp2,
               total_discount := total_discount,
               total_discount_percentage := tdp * 100,
               applied_discounts := ads1 ++ ads2 }

end PricingService

/-- Alert status (`alerts/models.py`); new alerts default to `active`. -/
inductive AlertStatus where
  | active
  | acknowledged
  | resolved
  | dismissed
deriving DecidableEq

/-- Alert priority levels used by the expiry sweep. -/
inductive AlertPriority where
  | low
  | medium
  | high
  | critical
deriving DecidableEq

/-- Alert types relevant to the modelled sweeps. -/
inductive AlertType where
  | expiry_warning
  | low_stock
deriving DecidableEq

/-- Alert row (`alerts/models.py`), restricted to the fields the dedup check
reads. -/
structure Alert where
  alert_type : AlertType
  product_id : Option Nat
  batch_id : Option Nat
  priority : AlertPriority
  status : AlertStatus
deriving DecidableEq

namespace AlertService

/-- Priority escalation of `check_expiry_alerts`: critical within one day,
high within three, medium otherwise. -/
def expiry_priority (days : Int) : AlertPriority :=
  if days ≤ 1 then .critical
  else if days ≤ 3 then .high
  else .medium

/-- Alert row created by `AlertService.create_alert` for an expiring batch:
type `expiry_warning`, default status `active`. -/
def mkExpiryAlert (today : Int) (b : Batch) : Alert :=
  { alert_type := .expiry_warning, product_id := some b.product_id,
    batch_id := some b.batch_id,
    priority := expiry_priority (b.days_until_expiry today),
    status := .active }

/-- Dedup query of `check_expiry_alerts`: an active expiry-warning alert for
this batch already exists. -/
def hasActiveExpiryAlert (alerts : List Alert) (bid : Nat) : Bool :=
  alerts.any fun a =>
    a.alert_type == .expiry_warning && a.batch_id == some bid
      && a.status == .active

/-- Sweep loop of `check_expiry_alerts` over the expiring batches: batches
with an existing active alert are skipped, otherwise an alert row is created
(and immediately visible to the dedup query of later iterations).  Returns
the final alert table and the list of alerts created. -/
def check_expiry_go (today : Int) : List Batch → List Alert →
    List Alert × List Alert
  | [], alerts => (alerts, [])
  | b :: rest, alerts =>
    if hasActiveExpiryAlert alerts b.batch_id then
      check_expiry_go today rest alerts
    else
      let a := mkExpiryAlert today b
      let res := check_expiry_go today rest (alerts ++ [a])
      (res.1, a :: res.2)

/-- Django `AlertService.check_expiry_alerts` (`alerts/services.py`): sweep
the batches expiring within `days_ahead` days in expiry order. -/
def check_expiry_alerts (today days_ahead : Int) (batches : List Batch)
    (alerts : List Alert) : List Alert × List Alert :=
  check_expiry_go today
    (InventoryService.get_expiring_batches today days_ahead batches) alerts

/-- Number of active expiry-warning alerts targeting a batch. -/
def countActiveExpiry (alerts : List Alert) (bid : Nat) : Nat :=
  (alerts.filter fun a =>
    a.alert_type == .expiry_warning && a.batch_id == some bid
      && a.status == .active).length

end AlertService

/-- Specification-side stacking of discount amounts (design §4.3): each
rule's percentage is computed against the price as reduced by all previously
applied discounts. -/
def specStackedAmounts : ℚ → List ℚ → List ℚ
  | _, [] => []
  | price, p :: ps => price * (p / 100) :: specStackedAmounts (price * (1 - p / 100)) ps

/-- Specification-side running price after stacking the given discount
percentages one after the other. -/
def specStackedFinal : ℚ → List ℚ → ℚ
  | price, [] => price
  | price, p :: ps => specStackedFinal (price * (1 - p / 100)) ps

/-- Shape of a purely volume-based dynamic rule that fires at the given
quantity, with a discount percentage strictly between 0 and 100. -/
def volumeRuleFires (q : ℚ) (r : DynamicPricing) : Prop :=
  r.is_active = true ∧ r.start_time = none ∧ r.end_time = none
    ∧ r.product_id = none ∧ r.retailer_id = none
    ∧ r.apply_to_expiring_batches = false ∧ r.expiry_discount_percentage = none
    ∧ ∃ v pct, r.volume_tier_quantity = some v ∧ r.volume_discount_percentage = some pct
        ∧ 0 < v ∧ v ≤ q ∧ 0 < pct ∧ pct < 100

/-- Combined effect of committing one `(batch_id, taken)` order item: the
batch row and the first inventory row for that batch are decremented by the
same amount. -/
def Routes.applyPairDec (s : SState) (p : Nat × ℚ) : SState :=
  { batches := BackendService.decBatchRow p.1 p.2 s.batches,
    invs := BackendService.decInvFirstForBatch p.1 p.2 s.invs }

/-- State invariant for the non-negativity theorem: all quantities are
non-negative, every inventory row holds at least its batch's current
quantity (the two counters are in sync, up to untracked locations), and
batch ids are unique. -/
def StateInv (st : SState) : Prop :=
  (∀ b ∈ st.batches, 0 ≤ b.current_quantity)
    ∧ (∀ i ∈ st.invs, 0 ≤ i.quantity_on_hand)
    ∧ (∀ i ∈ st.invs, ∀ b ∈ st.batches, b.batch_id = i.batch_id →
        b.current_quantity ≤ i.quantity_on_hand)
    ∧ (st.batches.map Batch.batch_id).Nodup

/-- Concrete general tier assignment used in the rule-stacking scenario:
tier "Standard" with a 20% discount, active and unbounded. -/
def exStandardPricing : RetailerPricing :=
  { retailer_id := 1, product_id := none,
    pricing_tier := { tier_name := "Standard", discount_percentage := 20 },
    custom_discount_percentage := none, custom_price := none,
    effective_from := 0, effective_to := none, is_active := true }

/-- Concrete dynamic rule used in the rule-stacking scenario: a 10% volume
discount from quantity 5 up, unrestricted otherwise. -/
def exVolumeRule : DynamicPricing :=
  { rule_name := "Volume 10", product_id := none, retailer_id := none,
    apply_to_expiring_batches := false, expiry_threshold_days := none,
    expiry_discount_percentage := none, volume_tier_quantity := some 5,
    volume_discount_percentage := some 10, start_time := none, end_time := none,
    is_active := true, priority := 0 }

/-- Concrete batch from the design's example scenario: 50 units expiring in
3 days. -/
def batchA : Batch :=
  { batch_id := 1, product_id := 1, production_date := 0, expiration_date := 3,
    initial_quantity := 50, current_quantity := 50, status := .in_stock }

/-- Concrete batch from the design's example scenario: 50 units expiring in
20 days. -/
def batchB : Batch :=
  { batch_id := 2, product_id := 1, production_date := 0, expiration_date := 20,
    initial_quantity := 50, current_quantity := 50, status := .in_stock }

/-- State holding the two example batches (no inventory rows are needed by
the Django allocator). -/
def stAB : SState :=
  { batches := [batchA, batchB], invs := [] }

/-- Concrete expired batch still marked `In Stock`: expired yesterday
relative to day 0. -/
def exBatchExpired : Batch :=
  { batch_id := 1, product_id := 1, production_date := -10, expiration_date := -1,
    initial_quantity := 50, current_quantity := 50, status := .in_stock }

/-- Inventory row carrying stock of the expired batch. -/
def exInvExpired : Inventory :=
  { inventory_id := 1, batch_id := 1, location := "W", quantity_on_hand := 50,
    reorder_point := none }

/-- State with the expired-but-in-stock batch. -/
def exStExpired : SState :=
  { batches := [exBatchExpired], invs := [exInvExpired] }

/-- Concrete batch for the lock-step scenario: 100 units in stock. -/
def exBatchLock : Batch :=
  { batch_id := 1, product_id := 1, production_date := 0, expiration_date := 5,
    initial_quantity := 100, current_quantity := 100, status := .in_stock }

/-- Concrete inventory row for the lock-step scenario, in sync with its
batch. -/
def exInvLock : Inventory :=
  { inventory_id := 1, batch_id := 1, location := "W", quantity_on_hand := 100,
    reorder_point := none }

/-- State for the lock-step scenario. -/
def exStLock : SState :=
  { batches := [exBatchLock], invs := [exInvLock] }

/-- Concrete batch whose inventory shadow is out of sync: the batch row says
50 units. -/
def exBatchSkew : Batch :=
  { batch_id := 1, product_id := 1, production_date := 0, expiration_date := 10,
    initial_quantity := 50, current_quantity := 50, status := .in_stock }

/-- Inventory row for the skewed batch holding only 10 units on hand. -/
def exInvSkew : Inventory :=
  { inventory_id := 1, batch_id := 1, location := "W", quantity_on_hand := 10,
    reorder_point := none }

/-- State whose batch and inventory counters disagree (both non-negative). -/
def exStSkew : SState :=
  { batches := [exBatchSkew], invs := [exInvSkew] }

/-- Concrete batch expiring in two days, eligible for the expiry sweep. -/
def exBatchExp : Batch :=
  { batch_id := 1, product_id := 1, production_date := 0, expiration_date := 2,
    initial_quantity := 5, current_quantity := 5, status := .in_stock }

section Claims

open InventoryService BackendService PricingService AlertService

/-- C1: the claim as stated is false on `PricingService.calculate_price`
(`backend/services.py`): with a tier of minimum 20% and maximum 30% and a
quantity of 10 (and no near-expiry batch), the returned discount percentage
is the tier minimum 20, not the midpoint 25. -/
theorem calculate_price_quantity_ten_not_midpoint :
    (BackendService.calculate_price
        (some { retailer_id := 1,
                pricing_tier := some { tier_name := "Gold",
                                       min_discount_percentage := 20,
                                       max_discount_percentage := 30 } })
        (some { product_id := 1, mrp := 100, shelf_life_days := 10 })
        10 0 []).map FlaskPriceResult.discount_percentage = some 20
      ∧ (20 : ℚ) ≠ 25 := by
  constructor
  · norm_num [BackendService.calculate_price, BackendService.check_batch_discount]
  · norm_num

/-- C1 (amended): with a tier of minimum 20% and maximum 30% and no
near-expiry batch discount, `calculate_price` succeeds and picks the tier
minimum below quantity 50, the midpoint 25 between 50 and 100, and the tier
maximum from 100 up; the unit price is the base price reduced by that
percentage, so it equals `base_price * 0.75` exactly on the middle band. -/
theorem calculate_price_tier_bands (r : FRetailer) (p : Product) (q : ℚ)
    (today : Int) (batches : List Batch) (tname : String)
    (htier : r.pricing_tier = some { tier_name := tname,
                                     min_discount_percentage := 20,
                                     max_discount_percentage := 30 })
    (hnb : BackendService.check_batch_discount today p.product_id batches = 0) :
    ∃ res, BackendService.calculate_price (some r) (some p) q today batches = some res
      ∧ res.discount_percentage = (if 100 ≤ q then (30 : ℚ) else if 50 ≤ q then 25 else 20)
      ∧ res.discounted_price = p.mrp * (1 - res.discount_percentage / 100)
      ∧ (50 ≤ q → q < 100 →
          res.discount_percentage = 25 ∧ res.discounted_price = p.mrp * (75 / 100)) := by
  have hD : ∀ x : ℚ, p.mrp - p.mrp * (x / 100) = p.mrp * (1 - x / 100) := fun x => by ring
  simp only [BackendService.calculate_price, htier, hnb]
  rw [if_neg (lt_irrefl (0 : ℚ))]
  simp only [show ((20 : ℚ) + 30) / 2 = 25 from by norm_num]
  refine ⟨_, rfl, rfl, hD _, ?_⟩
  intro h50 h100
  show (if 100 ≤ q then (30 : ℚ) else if 50 ≤ q then 25 else 20) = 25
    ∧ p.mrp - p.mrp * ((if 100 ≤ q then (30 : ℚ) else if 50 ≤ q then 25 else 20) / 100)
        = p.mrp * (75 / 100)
  rw [if_neg (by linarith : ¬ (100 : ℚ) ≤ q), if_pos h50]
  exact ⟨rfl, by ring⟩

/-- Witness for the amended C1 theorem at quantity 60: the discount is the
midpoint 25 and the unit price is three quarters of the base price. -/
theorem calculate_price_tier_bands_witness :
    ∃ res, BackendService.calculate_price
        (some { retailer_id := 1,
                pricing_tier := some { tier_name := "Gold",
                                       min_discount_percentage := 20,
                                       max_discount_percentage := 30 } })
        (some { product_id := 1, mrp := 100, shelf_life_days := 10 })
        60 0 [] = some res
      ∧ res.discount_percentage = (if 100 ≤ (60 : ℚ) then (30 : ℚ) else if 50 ≤ (60 : ℚ) then 25 else 20)
      ∧ res.discounted_price = (100 : ℚ) * (1 - res.discount_percentage / 100)
      ∧ (50 ≤ (60 : ℚ) → (60 : ℚ) < 100 →
          res.discount_percentage = 25 ∧ res.discounted_price = (100 : ℚ) * (75 / 100)) :=
  calculate_price_tier_bands
    { retailer_id := 1,
      pricing_tier := some { tier_name := "Gold", min_discount_percentage := 20,
                             max_discount_percentage := 30 } }
    { product_id := 1, mrp := 100, shelf_life_days := 10 }
    60 0 [] "Gold" rfl (by norm_num [BackendService.check_batch_discount])

/-- C7: the claim as stated is false on `PricingService.calculate_price`
(`backend/services.py`): for an existing retailer with no pricing tier the
Flask service applies a default discount of 10%, not zero — with base price
100 the returned unit price is 90. -/
theorem calculate_price_no_tier_default_ten_percent :
    (BackendService.calculate_price (some { retailer_id := 1, pricing_tier := none })
        (some { product_id := 1, mrp := 100, shelf_life_days := 10 })
        10 0 []).map
      (fun res => (res.discount_percentage, res.discounted_price))
      = some ((10 : ℚ), (90 : ℚ))
      ∧ (10 : ℚ) ≠ 0 := by
  constructor
  · norm_num [BackendService.calculate_price, BackendService.check_batch_discount]
  · norm_num

/-- C7 (amended): in the Django `PricingService.get_retailer_price` a
retailer with no pricing assignment (and hence no tier and no override) is
not an error: with no applicable dynamic rules and a nonzero base price the
call succeeds with zero discount and a final price equal to the base price. -/
theorem get_retailer_price_no_tier_zero_discount (now today : Int) (rid : Nat)
    (p : Product) (q : ℚ) (batch : Option Batch) (rules : List DynamicPricing)
    (hmrp : p.mrp ≠ 0)
    (hrules : PricingService.applicable_rules p.product_id rid rules = []) :
    PricingService.get_retailer_price now today rid p q batch [] rules
      = some { base_price := p.mrp, final_price := p.mrp, total_discount := 0,
               total_discount_percentage := 0, applied_discounts := [] } := by
  simp only [PricingService.get_retailer_price, PricingService.select_retailer_pricing,
    List.find?_nil, PricingService.tier_step, hrules, PricingService.applyRules,
    qdiv, sub_self, if_neg hmrp, zero_div, zero_mul, List.nil_append]

/-- Witness for the amended C7 theorem: a retailer with no pricing rows and
no rules gets the unchanged base price 100. -/
theorem get_retailer_price_no_tier_zero_discount_witness :
    PricingService.get_retailer_price 0 0 1
        { product_id := 1, mrp := 100, shelf_life_days := 10 } 5 none [] []
      = some { base_price := 100, final_price := 100, total_discount := 0,
               total_discount_percentage := 0, applied_discounts := [] } :=
  get_retailer_price_no_tier_zero_discount 0 0 1
    { product_id := 1, mrp := 100, shelf_life_days := 10 } 5 none []
    (by norm_num) rfl

/-- C10: the `mrp` validator admits a zero reference price, and for any
product with `mrp = 0` the Django `get_retailer_price` hits a division by
zero while computing the discount percentages (every exit path divides by the
base price), so no pricing breakdown is returned. -/
theorem mrp_zero_breaks_get_retailer_price :
    mrpValidator 0 = true
      ∧ ∀ (now today : Int) (rid : Nat) (p : Product) (q : ℚ) (batch : Option Batch)
          (rps : List RetailerPricing) (rules : List DynamicPricing),
          p.mrp = 0 →
          PricingService.get_retailer_price now today rid p q batch rps rules = none := by
  constructor
  · norm_num [mrpValidator]
  · intro now today rid p q batch rps rules hmrp
    simp only [PricingService.get_retailer_price, hmrp]
    split
    · rfl
    · split
      · rfl
      · simp [qdiv]

/-- Witness for the C10 theorem at a concrete zero-priced product. -/
theorem mrp_zero_breaks_get_retailer_price_witness :
    PricingService.get_retailer_price 0 0 1
        { product_id := 1, mrp := 0, shelf_life_days := 5 } 1 none [] [] = none :=
  mrp_zero_breaks_get_retailer_price.2 0 0 1
    { product_id := 1, mrp := 0, shelf_life_days := 5 } 1 none [] [] rfl

/-- Helper: a purely volume-based rule that fires is judged applicable by
`DynamicPricing.is_applicable` when no batch is supplied. -/
theorem volume_rule_applicable (now today : Int) (pid rid : Nat) (q : ℚ)
    (r : DynamicPricing) (h : volumeRuleFires q r) :
    PricingService.is_applicable now today r pid rid none q = true := by
  obtain ⟨hact, hst, het, hprod, hret, hexp, hexppct, v, pct, hv, hpct, hv0, hvq, hpct0, hpct100⟩ := h
  have hvne : v ≠ 0 := ne_of_gt hv0
  have hqne : q ≠ 0 := ne_of_gt (lt_of_lt_of_le hv0 hvq)
  simp [PricingService.is_applicable, hact, hst, het, hprod, hret, hv, truthyQ,
    hvne, hqne, hvq]

/-- Helper: for a purely volume-based rule that fires, the discount computed
against the supplied price is that price times the rule's percentage. -/
theorem volume_rule_discount (now today : Int) (pid rid : Nat) (q P : ℚ)
    (r : DynamicPricing) (h : volumeRuleFires q r) :
    PricingService.calculate_discount now today r P pid rid none q
      = P * (r.volume_discount_percentage.getD 0 / 100) := by
  have happ := volume_rule_applicable now today pid rid q r h
  obtain ⟨hact, hst, het, hprod, hret, hexp, hexppct, v, pct, hv, hpct, hv0, hvq, hpct0, hpct100⟩ := h
  have hvne : v ≠ 0 := ne_of_gt hv0
  have hqne : q ≠ 0 := ne_of_gt (lt_of_lt_of_le hv0 hvq)
  have hpctne : pct ≠ 0 := ne_of_gt hpct0
  simp [PricingService.calculate_discount, happ, hexp, hv, hpct, truthyQ,
    hvne, hqne, hpctne, hvq]

/-- C6: dynamic pricing rules stack against the running price.  Concretely,
with base price 100, a 20% tier (price 80) and an applicable 10% volume
rule, the volume discount amount is 8 (10% of 80) and the final price is 72;
in general `applyRules` realises the specification-side stacking in which
each rule's percentage is applied to the price as reduced by all previously
applied discounts. -/
theorem rule_stacking_on_running_price :
    (∃ pb, PricingService.get_retailer_price 0 0 1
          { product_id := 1, mrp := 100, shelf_life_days := 10 } 10 none
          [exStandardPricing] [exVolumeRule] = some pb
        ∧ pb.final_price = 72
        ∧ pb.applied_discounts.map AppliedDiscount.discount_amount = [20, 8])
    ∧ ∀ (now today : Int) (pid rid : Nat) (q base : ℚ) (rules : List DynamicPricing)
        (P : ℚ), base ≠ 0 → 0 < P → (∀ r ∈ rules, volumeRuleFires q r) →
        ∃ ads, PricingService.applyRules now today pid rid none q base P rules
            = some (specStackedFinal P (rules.map fun r => r.volume_discount_percentage.getD 0), ads)
          ∧ ads.map AppliedDiscount.discount_amount
              = specStackedAmounts P (rules.map fun r => r.volume_discount_percentage.getD 0) := by
  constructor
  · have h : PricingService.get_retailer_price 0 0 1
          { product_id := 1, mrp := 100, shelf_life_days := 10 } 10 none
          [exStandardPricing] [exVolumeRule]
        = some { base_price := 100, final_price := 72, total_discount := 28,
                 total_discount_percentage := 28,
                 applied_discounts :=
                   [{ name := "Standard", discount_amount := 20, discount_percentage := 20 },
                    { name := "Volume 10", discount_amount := 8, discount_percentage := 8 }] } := by
      norm_num [PricingService.get_retailer_price, PricingService.tier_step,
        PricingService.select_retailer_pricing, PricingService.rpMatches,
        PricingService.get_effective_price, truthyQ, PricingService.applicable_rules,
        PricingService.ruleQueryMatches, PricingService.applyRules,
        PricingService.is_applicable, PricingService.calculate_discount, qdiv,
        exStandardPricing, exVolumeRule, List.insertionSort, List.orderedInsert]
    exact ⟨_, h, rfl, rfl⟩
  · intro now today pid rid q base rules
    induction rules with
    | nil => exact fun P hbase hP _ => ⟨[], rfl, rfl⟩
    | cons r rest ih =>
      intro P hbase hP hr
      have hfire := hr r (List.mem_cons_self r rest)
      have happ := volume_rule_applicable now today pid rid q r hfire
      have hdisc := volume_rule_discount now today pid rid q P r hfire
      obtain ⟨hact, hst, het, hprod, hret, hexp, hexppct, v, pct, hv, hpct, hv0, hvq,
        hpct0, hpct100⟩ := hfire
      rw [hpct] at hdisc
      simp only [Option.getD_some] at hdisc
      have hdpos : 0 < P * (pct / 100) :=
        mul_pos hP (div_pos hpct0 (by norm_num))
      have hP' : 0 < P * (1 - pct / 100) := by
        have h1 : pct / 100 < 1 := (div_lt_one (by norm_num : (0 : ℚ) < 100)).mpr hpct100
        have h2 : 0 < 1 - pct / 100 := by linarith
        exact mul_pos hP h2
      obtain ⟨ads, hads1, hads2⟩ :=
        ih (P * (1 - pct / 100)) hbase hP' (fun x hx => hr x (List.mem_cons_of_mem r hx))
      refine ⟨{ name := r.rule_name, discount_amount := P * (pct / 100),
                discount_percentage := P * (pct / 100) / base * 100 } :: ads, ?_, ?_⟩
      · simp only [PricingService.applyRules, happ, if_true, hdisc]
        rw [if_pos hdpos]
        simp only [qdiv, if_neg hbase]
        rw [show P - P * (pct / 100) = P * (1 - pct / 100) from by ring, hads1]
        simp [specStackedFinal, hpct]
      · simp [specStackedAmounts, hpct, hads2]

/-- Witness for the general part of the rule-stacking theorem: one 10%
volume rule applied at running price 80 (base 100) yields amount 8 and final
price 72. -/
theorem rule_stacking_on_running_price_witness :
    (∃ ads, PricingService.applyRules 0 0 1 1 none 10 100 80 [exVolumeRule]
        = some (specStackedFinal 80
            ([exVolumeRule].map fun r => r.volume_discount_percentage.getD 0), ads)
        ∧ ads.map AppliedDiscount.discount_amount
            = specStackedAmounts 80
                ([exVolumeRule].map fun r => r.volume_discount_percentage.getD 0))
      ∧ specStackedFinal 80 [(10 : ℚ)] = 72
      ∧ specStackedAmounts 80 [(10 : ℚ)] = [8] := by
  refine ⟨rule_stacking_on_running_price.2 0 0 1 1 10 100 [exVolumeRule] 80 (by norm_num)
    (by norm_num) ?_, ?_, ?_⟩
  · intro x hx
    rw [List.mem_singleton] at hx
    subst hx
    exact ⟨rfl, rfl, rfl, rfl, rfl, rfl, rfl, 5, 10, rfl, rfl, by norm_num, by norm_num,
      by norm_num, by norm_num⟩
  · norm_num [specStackedFinal]
  · norm_num [specStackedAmounts]

/-- Helper: the greedy allocation walk never takes more than the remaining
quantity. -/
theorem sumTaken_allocate_greedy_le :
    ∀ (l : List Batch) (r : ℚ), 0 ≤ r →
      InventoryService.sumTaken (InventoryService.allocate_greedy r l) ≤ r := by
  intro l
  induction l with
  | nil =>
    intro r hr
    simpa [InventoryService.allocate_greedy, InventoryService.sumTaken] using hr
  | cons b rest ih =>
    intro r hr
    by_cases h : r ≤ 0
    · simpa [InventoryService.allocate_greedy, if_pos h, InventoryService.sumTaken] using hr
    · simp only [InventoryService.allocate_greedy, if_neg h]
      have htake : min r b.current_quantity ≤ r := min_le_left _ _
      have h0 : 0 ≤ r - min r b.current_quantity := by linarith
      have hrec := ih (r - min r b.current_quantity) h0
      simp only [InventoryService.sumTaken, List.map_cons, List.sum_cons] at hrec ⊢
      linarith

/-- C3: allocation conservation — for any fulfilment run (FIFO or FEFO), the
sum of the quantities taken across the returned pairs plus the reported
shortage equals the requested quantity. -/
theorem fulfill_conservation (today : Int) (pid : Nat) (requested : ℚ)
    (loc : Option String) (method : AllocMethod) (st : SState)
    (res : InventoryService.FulfillResult) (st' : SState) (hreq : 0 ≤ requested)
    (hrun : InventoryService.fulfill_order_item today pid requested loc method st
      = (res, st')) :
    InventoryService.sumTaken res.allocations + res.shortage = requested := by
  cases method with
  | fifo =>
    have hle := sumTaken_allocate_greedy_le
      (InventoryService.get_available_batches_fifo pid loc st) requested hreq
    simp only [InventoryService.fulfill_order_item,
      InventoryService.allocate_inventory_fifo] at hrun
    split at hrun
    · rename_i hlt
      injection hrun with h1 h2
      subst h1
      dsimp only
      ring
    · rename_i hlt
      injection hrun with h1 h2
      subst h1
      dsimp only
      have hge := le_of_not_lt hlt
      linarith
  | fefo =>
    have hle := sumTaken_allocate_greedy_le
      (InventoryService.get_available_batches_fefo today pid loc st) requested hreq
    simp only [InventoryService.fulfill_order_item,
      InventoryService.allocate_inventory_fefo] at hrun
    split at hrun
    · rename_i hlt
      injection hrun with h1 h2
      subst h1
      dsimp only
      ring
    · rename_i hlt
      injection hrun with h1 h2
      subst h1
      dsimp only
      have hge := le_of_not_lt hlt
      linarith

/-- Witness for the conservation theorem on the design's example scenario:
allocating 70 against batches of 50 (expiring day 3) and 50 (expiring day
20). -/
theorem fulfill_conservation_witness :
    InventoryService.sumTaken
        ((InventoryService.fulfill_order_item 0 1 70 none .fefo stAB).1).allocations
      + ((InventoryService.fulfill_order_item 0 1 70 none .fefo stAB).1).shortage
      = 70 :=
  fulfill_conservation 0 1 70 none .fefo stAB
    (InventoryService.fulfill_order_item 0 1 70 none .fefo stAB).1
    (InventoryService.fulfill_order_item 0 1 70 none .fefo stAB).2
    (by norm_num) rfl

/-- Helper: the batches of a greedy allocation form a sublist of the
candidate list. -/
theorem allocate_greedy_fst_sublist :
    ∀ (l : List Batch) (r : ℚ),
      ((InventoryService.allocate_greedy r l).map Prod.fst).Sublist l := by
  intro l
  induction l with
  | nil => intro r; simp [InventoryService.allocate_greedy]
  | cons b rest ih =>
    intro r
    by_cases h : r ≤ 0
    · simp [InventoryService.allocate_greedy, if_pos h]
    · simp only [InventoryService.allocate_greedy, if_neg h, List.map_cons]
      exact List.Sublist.cons₂ b (ih _)

/-- Helper: a non-empty greedy allocation means a positive remaining
quantity at entry. -/
theorem allocate_greedy_ne_nil (l : List Batch) (r : ℚ)
    (h : InventoryService.allocate_greedy r l ≠ []) : 0 < r := by
  cases l with
  | nil => simp [InventoryService.allocate_greedy] at h
  | cons b rest =>
    by_cases hr : r ≤ 0
    · simp [InventoryService.allocate_greedy, if_pos hr] at h
    · exact lt_of_not_le hr

/-- Helper: in a greedy allocation every pair except possibly the last one
takes the batch's full current quantity. -/
theorem allocate_greedy_dropLast_full :
    ∀ (l : List Batch) (r : ℚ),
      ∀ p ∈ (InventoryService.allocate_greedy r l).dropLast,
        p.2 = p.1.current_quantity := by
  intro l
  induction l with
  | nil => intro r p hp; simp [InventoryService.allocate_greedy] at hp
  | cons b rest ih =>
    intro r p hp
    by_cases h : r ≤ 0
    · simp [InventoryService.allocate_greedy, if_pos h] at hp
    · simp only [InventoryService.allocate_greedy, if_neg h] at hp
      cases hout : InventoryService.allocate_greedy (r - min r b.current_quantity) rest with
      | nil => rw [hout] at hp; simp at hp
      | cons c cs =>
        rw [hout] at hp
        have hpos : 0 < r - min r b.current_quantity :=
          allocate_greedy_ne_nil rest _ (by rw [hout]; exact List.cons_ne_nil c cs)
        have hmin : min r b.current_quantity = b.current_quantity := by
          rcases min_cases r b.current_quantity with ⟨hm, _⟩ | ⟨hm, _⟩
          · rw [hm] at hpos; linarith
          · exact hm
        rcases (List.mem_cons).mp hp with rfl | hp'
        · simpa using hmin.symm
        · have := ih (r - min r b.current_quantity) p (by rw [hout]; exact hp')
          exact this

/-- C4 (counterexample to the claim as stated): the Flask
`InventoryService.allocate_inventory` FEFO path has no expiry filter, so a
run (taking today = 0) draws its whole allocation from a batch whose
expiration date -1 is not strictly after today. -/
theorem flask_allocate_draws_expired_batch :
    ((BackendService.allocate_inventory 1 20 .fefo exStExpired).1.map
        BackendService.FlaskAllocEntry.batch_id = [1])
      ∧ exBatchExpired.batch_id = 1
      ∧ exBatchExpired.status = BatchStatus.in_stock
      ∧ ¬ (0 : Int) < exBatchExpired.expiration_date := by
  refine ⟨?_, rfl, rfl, by norm_num [exBatchExpired]⟩
  norm_num [BackendService.allocate_inventory, BackendService.flask_join,
    BackendService.flaskAllocFilter, BackendService.flask_alloc_go,
    BackendService.decBatchRow, BackendService.decInvRow, exStExpired,
    exBatchExpired, exInvExpired, List.insertionSort, List.orderedInsert]

/-- C4 (amended): the Django FEFO allocator draws only from batches of the
product that are in stock with positive current quantity and an expiration
date strictly after today, returns its pairs in ascending expiration-date
order, and takes the full quantity of every batch except possibly the last
one it touches. -/
theorem allocate_inventory_fefo_properties (today : Int) (pid : Nat)
    (loc : Option String) (requested : ℚ) (st : SState) :
    (∀ p ∈ InventoryService.allocate_inventory_fefo today pid requested loc st,
        p.1.product_id = pid ∧ 0 < p.1.current_quantity
          ∧ p.1.status = BatchStatus.in_stock ∧ today < p.1.expiration_date)
      ∧ List.Sorted expLE
          ((InventoryService.allocate_inventory_fefo today pid requested loc st).map
            Prod.fst)
      ∧ ∀ p ∈ (InventoryService.allocate_inventory_fefo today pid requested loc st).dropLast,
          p.2 = p.1.current_quantity := by
  refine ⟨?_, ?_, allocate_greedy_dropLast_full _ _⟩
  · intro p hp
    have hmem : p.1 ∈ InventoryService.get_available_batches_fefo today pid loc st :=
      (allocate_greedy_fst_sublist _ _).subset (List.mem_map_of_mem Prod.fst hp)
    have hfil : p.1 ∈ st.batches.filter fun b =>
        InventoryService.fefoEligible today pid b
          && InventoryService.locationOk st.invs loc b :=
      (List.perm_insertionSort expLE _).mem_iff.mp hmem
    have hcond := List.of_mem_filter hfil
    simp only [Bool.and_eq_true, InventoryService.fefoEligible, beq_iff_eq,
      decide_eq_true_eq] at hcond
    exact ⟨hcond.1.1.1.1, hcond.1.1.1.2, hcond.1.1.2, hcond.1.2⟩
  · have hsorted : List.Sorted expLE
        (InventoryService.get_available_batches_fefo today pid loc st) :=
      List.sorted_insertionSort expLE _
    exact List.Pairwise.sublist (allocate_greedy_fst_sublist _ _) hsorted

/-- Witness for the amended FEFO theorem on the example scenario: the first
pair drawn when allocating 70 against the two example batches is the
earlier-expiring batch `batchA`, taken in full. -/
theorem allocate_inventory_fefo_properties_witness :
    batchA.product_id = 1 ∧ 0 < batchA.current_quantity
      ∧ batchA.status = BatchStatus.in_stock ∧ (0 : Int) < batchA.expiration_date :=
  (allocate_inventory_fefo_properties 0 1 none 70 stAB).1 (batchA, 50)
    (by norm_num [InventoryService.allocate_inventory_fefo,
      InventoryService.get_available_batches_fefo, InventoryService.fefoEligible,
      InventoryService.locationOk, InventoryService.allocate_greedy, stAB, batchA,
      batchB, List.insertionSort, List.orderedInsert])

/-- Helper: when the line-item loop aborts, the reported product id is one of
the requested items. -/
theorem create_order_go_error_mem :
    ∀ (items : List (Nat × ℚ)) (st : SState) (acc : List (Nat × ℚ)) (pid : Nat),
      Routes.create_order_go st items acc = .error pid → pid ∈ items.map Prod.fst := by
  intro items
  induction items with
  | nil => intro st acc pid h; simp [Routes.create_order_go] at h
  | cons it rest ih =>
    intro st acc pid h
    obtain ⟨p, q⟩ := it
    simp only [Routes.create_order_go] at h
    split at h
    · injection h with h1
      subst h1
      simp
    · exact List.mem_cons_of_mem _ (ih _ _ _ h)

/-- C2: if any line item of an order ends with a positive remaining
shortfall, `create_order` persists the pre-call state unchanged (all earlier
batch and inventory decrements of the same call are rolled back), creates no
order items, and returns an insufficient-stock error naming one of the
requested products. -/
theorem create_order_rollback_on_shortfall (st : SState) (items : List (Nat × ℚ))
    (st' : SState) (pid : Nat) (its : List (Nat × ℚ))
    (h : Routes.create_order st items = (st', some pid, its)) :
    st' = st ∧ its = [] ∧ pid ∈ items.map Prod.fst := by
  simp only [Routes.create_order] at h
  split at h
  · simp [Prod.mk.injEq] at h
  · rename_i p heq
    simp only [Prod.mk.injEq] at h
    obtain ⟨rfl, h2, rfl⟩ := h
    obtain rfl := Option.some.inj h2
    exact ⟨rfl, rfl, create_order_go_error_mem items st [] p heq⟩

/-- Witness for the rollback theorem: ordering 200 units against total stock
100 aborts with the product named and the state unchanged. -/
theorem create_order_rollback_witness :
    Routes.create_order stAB [(1, 200)] = (stAB, some 1, [])
      ∧ stAB = stAB ∧ ([] : List (Nat × ℚ)) = []
      ∧ (1 : Nat) ∈ [((1 : Nat), (200 : ℚ))].map Prod.fst := by
  have h : Routes.create_order stAB [(1, 200)] = (stAB, some 1, []) := by
    norm_num [Routes.create_order, Routes.create_order_go, Routes.order_item_go,
      Routes.routeAvailable, Routes.routeEligible, Routes.getBatch, Routes.expProdLE,
      BackendService.decBatchRow, BackendService.decInvFirstForBatch, stAB, batchA,
      batchB, List.insertionSort, List.orderedInsert]
  refine ⟨h, rfl, rfl, ?_⟩
  exact (create_order_rollback_on_shortfall stAB [(1, 200)] stAB 1 [] h).2.2

/-- Helper: the state produced by the inner order loop is exactly the initial
state with the returned `(batch_id, taken)` pairs applied in order. -/
theorem order_item_go_fold :
    ∀ (ids : List Nat) (st : SState) (rem : ℚ),
      (Routes.order_item_go st rem ids).1
        = (Routes.order_item_go st rem ids).2.2.foldl Routes.applyPairDec st := by
  intro ids
  induction ids with
  | nil => intro st rem; simp [Routes.order_item_go]
  | cons bid rest ih =>
    intro st rem
    by_cases h : rem ≤ 0
    · simp [Routes.order_item_go, if_pos h]
    · simp only [Routes.order_item_go, if_neg h]
      cases hfind : Routes.getBatch bid st.batches with
      | none => simp only [hfind]; exact ih st rem
      | some b =>
        simp only [hfind, List.foldl_cons, Routes.applyPairDec]
        exact ih _ _

/-- Helper: a successful run of the line-item loop commits exactly the folds
of the accumulated order items. -/
theorem create_order_go_fold :
    ∀ (items : List (Nat × ℚ)) (st : SState) (acc : List (Nat × ℚ)) (st' : SState)
      (its : List (Nat × ℚ)),
      Routes.create_order_go st items acc = .ok (st', its) →
      ∃ suffix, its = acc ++ suffix ∧ st' = suffix.foldl Routes.applyPairDec st := by
  intro items
  induction items with
  | nil =>
    intro st acc st' its h
    simp only [Routes.create_order_go] at h
    injection h with h1
    injection h1 with ha hb
    subst ha
    subst hb
    exact ⟨[], by simp, rfl⟩
  | cons it rest ih =>
    intro st acc st' its h
    obtain ⟨p, q⟩ := it
    simp only [Routes.create_order_go] at h
    split at h
    · simp at h
    · obtain ⟨suffix, h1, h2⟩ := ih _ _ _ _ h
      refine ⟨(Routes.order_item_go st q (Routes.routeAvailable p st)).2.2 ++ suffix, ?_, ?_⟩
      · rw [h1, List.append_assoc]
      · rw [h2, List.foldl_append, ← order_item_go_fold]

/-- C8 (amended): in the Flask `create_order` the committed state is exactly
the pre-call state with, for each returned `(batch_id, taken)` order item in
sequence, the batch row and the first inventory row of that batch both
decremented by `taken`; and each such decrement updates the looked-up row in
lock-step by the same amount. -/
theorem create_order_lockstep :
    (∀ (st : SState) (items : List (Nat × ℚ)) (st' : SState) (its : List (Nat × ℚ)),
        Routes.create_order st items = (st', none, its) →
        st' = its.foldl Routes.applyPairDec st)
      ∧ (∀ (bs : List Batch) (bid : Nat) (q : ℚ) (b : Batch),
          Routes.getBatch bid bs = some b →
          Routes.getBatch bid (BackendService.decBatchRow bid q bs)
            = some { b with current_quantity := b.current_quantity - q })
      ∧ (∀ (rows : List Inventory) (bid : Nat) (q : ℚ) (i : Inventory),
          rows.find? (fun x => x.batch_id == bid) = some i →
          (BackendService.decInvFirstForBatch bid q rows).find?
              (fun x => x.batch_id == bid)
            = some { i with quantity_on_hand := i.quantity_on_hand - q }) := by
  refine ⟨?_, ?_, ?_⟩
  · intro st items st' its h
    simp only [Routes.create_order] at h
    split at h
    · rename_i st2 its2 heq
      simp only [Prod.mk.injEq] at h
      obtain ⟨rfl, -, rfl⟩ := h
      obtain ⟨suffix, h1, h2⟩ := create_order_go_fold items st [] st2 its2 heq
      rw [List.nil_append] at h1
      rw [h1]
      exact h2
    · simp [Prod.mk.injEq] at h
  · intro bs
    induction bs with
    | nil => intro bid q b h; simp [Routes.getBatch] at h
    | cons a rest ih =>
      intro bid q b h
      simp only [Routes.getBatch, List.find?_cons] at h
      cases ha : a.batch_id == bid with
      | true =>
        rw [ha] at h
        dsimp only at h
        obtain rfl : a = b := Option.some.inj h
        simp [BackendService.decBatchRow, ha, Routes.getBatch, List.find?_cons]
      | false =>
        rw [ha] at h
        dsimp only at h
        simp only [BackendService.decBatchRow, ha, Bool.false_eq_true, if_false,
          Routes.getBatch, List.find?_cons]
        exact ih bid q b h
  · intro rows
    induction rows with
    | nil => intro bid q i h; simp at h
    | cons a rest ih =>
      intro bid q i h
      simp only [List.find?_cons] at h
      cases ha : a.batch_id == bid with
      | true =>
        rw [ha] at h
        dsimp only at h
        obtain rfl : a = i := Option.some.inj h
        simp [BackendService.decInvFirstForBatch, ha, List.find?_cons]
      | false =>
        rw [ha] at h
        dsimp only at h
        simp only [BackendService.decInvFirstForBatch, ha, Bool.false_eq_true, if_false,
          List.find?_cons]
        exact ih bid q i h

/-- Witness for the lock-step theorem: committing an order of 30 against a
batch of 100 with a matching inventory row of 100 leaves both counters at
70, and the committed state is the fold of the returned order items. -/
theorem create_order_lockstep_witness :
    (Routes.create_order exStLock [(1, 30)]).2.1 = none
      ∧ (Routes.create_order exStLock [(1, 30)]).1
          = ((Routes.create_order exStLock [(1, 30)]).2.2).foldl Routes.applyPairDec exStLock
      ∧ (Routes.create_order exStLock [(1, 30)]).1.batches.map Batch.current_quantity = [70]
      ∧ (Routes.create_order exStLock [(1, 30)]).1.invs.map Inventory.quantity_on_hand = [70] := by
  have h : Routes.create_order exStLock [(1, 30)]
      = ({ batches := [{ batch_id := 1, product_id := 1, production_date := 0,
                         expiration_date := 5, initial_quantity := 100,
                         current_quantity := 70, status := .in_stock }],
           invs := [{ inventory_id := 1, batch_id := 1, location := "W",
                      quantity_on_hand := 70, reorder_point := none }] },
         none, [(1, 30)]) := by
    norm_num [Routes.create_order, Routes.create_order_go, Routes.order_item_go,
      Routes.routeAvailable, Routes.routeEligible, Routes.getBatch, Routes.expProdLE,
      BackendService.decBatchRow, BackendService.decInvFirstForBatch, exStLock,
      exBatchLock, exInvLock, List.insertionSort, List.orderedInsert]
  refine ⟨by rw [h], ?_, by rw [h]; rfl, by rw [h]; rfl⟩
  exact create_order_lockstep.1 exStLock [(1, 30)] _ _ (by rw [h])

/-- C5 (counterexample to the claim as stated): starting from non-negative
quantities whose batch and inventory counters disagree (batch 50, on hand
10), a committed order of 50 drives the inventory row to -40: `create_order`
bounds each take by the batch's current quantity only and decrements the
inventory row by the same amount unconditionally. -/
theorem create_order_inventory_goes_negative :
    (Routes.create_order exStSkew [(1, 50)]).2.1 = none
      ∧ (Routes.create_order exStSkew [(1, 50)]).1.invs.map Inventory.quantity_on_hand
          = [-40]
      ∧ ¬ (0 : ℚ) ≤ -40
      ∧ exStSkew.batches.map Batch.current_quantity = [50]
      ∧ exStSkew.invs.map Inventory.quantity_on_hand = [10]
      ∧ (0 : ℚ) ≤ 50 ∧ (0 : ℚ) ≤ 10 := by
  have h : Routes.create_order exStSkew [(1, 50)]
      = ({ batches := [{ batch_id := 1, product_id := 1, production_date := 0,
                         expiration_date := 10, initial_quantity := 50,
                         current_quantity := 0, status := .in_stock }],
           invs := [{ inventory_id := 1, batch_id := 1, location := "W",
                      quantity_on_hand := -40, reorder_point := none }] },
         none, [(1, 50)]) := by
    norm_num [Routes.create_order, Routes.create_order_go, Routes.order_item_go,
      Routes.routeAvailable, Routes.routeEligible, Routes.getBatch, Routes.expProdLE,
      BackendService.decBatchRow, BackendService.decInvFirstForBatch, exStSkew,
      exBatchSkew, exInvSkew, List.insertionSort, List.orderedInsert]
  refine ⟨by rw [h], by rw [h]; rfl, by norm_num, by rfl, by rfl, by norm_num, by norm_num⟩

/-- Helper: decrementing a batch row does not change the id column. -/
theorem decBatchRow_map_id (bid : Nat) (q : ℚ) :
    ∀ bs : List Batch,
      (BackendService.decBatchRow bid q bs).map Batch.batch_id = bs.map Batch.batch_id := by
  intro bs
  induction bs with
  | nil => rfl
  | cons a rest ih =>
    by_cases ha : (a.batch_id == bid) = true
    · simp [BackendService.decBatchRow, ha]
    · simp [BackendService.decBatchRow, ha, ih]

/-- Helper: with unique batch ids, a member of the decremented batch table is
either an untouched row with a different id or the looked-up row decremented. -/
theorem mem_decBatchRow (bid : Nat) (q : ℚ) :
    ∀ (bs : List Batch) (b : Batch), Routes.getBatch bid bs = some b →
      (bs.map Batch.batch_id).Nodup →
      ∀ b' ∈ BackendService.decBatchRow bid q bs,
        (b' ∈ bs ∧ b'.batch_id ≠ bid)
          ∨ b' = { b with current_quantity := b.current_quantity - q } := by
  intro bs
  induction bs with
  | nil => intro b h; simp [Routes.getBatch] at h
  | cons a rest ih =>
    intro b h hnd b' hb'
    simp only [List.map_cons, List.nodup_cons] at hnd
    simp only [Routes.getBatch, List.find?_cons] at h
    by_cases ha : (a.batch_id == bid) = true
    · rw [ha] at h
      dsimp only at h
      have hab : a = b := Option.some.inj h
      have hbid : a.batch_id = bid := by simpa using ha
      simp only [BackendService.decBatchRow, ha, if_true] at hb'
      rcases List.mem_cons.mp hb' with heq | hmem
      · exact Or.inr (by rw [heq, hab])
      · refine Or.inl ⟨List.mem_cons_of_mem _ hmem, fun hcontra => ?_⟩
        have hin : b'.batch_id ∈ rest.map Batch.batch_id :=
          List.mem_map_of_mem Batch.batch_id hmem
        rw [hcontra, ← hbid] at hin
        exact hnd.1 hin
    · rw [Bool.not_eq_true] at ha
      rw [ha] at h
      dsimp only at h
      simp only [BackendService.decBatchRow, ha, Bool.false_eq_true, if_false] at hb'
      rcases List.mem_cons.mp hb' with heq | hmem
      · exact Or.inl ⟨by rw [heq]; exact List.mem_cons_self a rest,
          by rw [heq]; exact beq_eq_false_iff_ne.mp ha⟩
      · rcases ih b h hnd.2 b' hmem with ⟨hm, hne⟩ | heq
        · exact Or.inl ⟨List.mem_cons_of_mem _ hm, hne⟩
        · exact Or.inr heq

/-- Helper: a member of the decremented inventory table is an untouched row
or some row for the batch decremented by the taken quantity. -/
theorem mem_decInvFirst (bid : Nat) (q : ℚ) :
    ∀ (rows : List Inventory), ∀ i' ∈ BackendService.decInvFirstForBatch bid q rows,
      i' ∈ rows
        ∨ ∃ i0, i0 ∈ rows ∧ i0.batch_id = bid
            ∧ i' = { i0 with quantity_on_hand := i0.quantity_on_hand - q } := by
  intro rows
  induction rows with
  | nil => intro i' h; simp [BackendService.decInvFirstForBatch] at h
  | cons a rest ih =>
    intro i' h
    by_cases ha : (a.batch_id == bid) = true
    · simp only [BackendService.decInvFirstForBatch, ha, if_true] at h
      rcases List.mem_cons.mp h with heq | hmem
      · exact Or.inr ⟨a, List.mem_cons_self a rest, by simpa using ha, heq⟩
      · exact Or.inl (List.mem_cons_of_mem _ hmem)
    · simp only [BackendService.decInvFirstForBatch, ha, if_false] at h
      rcases List.mem_cons.mp h with heq | hmem
      · exact Or.inl (by rw [heq]; exact List.mem_cons_self a rest)
      · rcases ih i' hmem with hm | ⟨i0, hi0, hbid, heq⟩
        · exact Or.inl (List.mem_cons_of_mem _ hm)
        · exact Or.inr ⟨i0, List.mem_cons_of_mem _ hi0, hbid, heq⟩

/-- Helper: one committed `(batch_id, taken)` decrement preserves the state
invariant when the taken quantity is bounded by the looked-up batch's
current quantity. -/
theorem StateInv_step (st : SState) (bid : Nat) (q : ℚ) (b : Batch)
    (hfind : Routes.getBatch bid st.batches = some b)
    (hq0 : 0 ≤ q) (hqb : q ≤ b.current_quantity)
    (hinv : StateInv st) : StateInv (Routes.applyPairDec st (bid, q)) := by
  obtain ⟨hB, hI, hSync, hnd⟩ := hinv
  have hbmem : b ∈ st.batches := List.mem_of_find?_eq_some hfind
  have hbbid : b.batch_id = bid := by
    have := List.find?_some hfind
    simpa using this
  refine ⟨?_, ?_, ?_, ?_⟩
  · intro b' hb'
    rcases mem_decBatchRow bid q st.batches b hfind hnd b' hb' with ⟨hm, -⟩ | heq
    · exact hB b' hm
    · rw [heq]
      have := hB b hbmem
      simp only
      linarith
  · intro i' hi'
    rcases mem_decInvFirst bid q st.invs i' hi' with hm | ⟨i0, hi0, hibid, heq⟩
    · exact hI i' hm
    · rw [heq]
      have hs := hSync i0 hi0 b hbmem (hbbid.trans hibid.symm)
      simp only
      linarith
  · intro i' hi' b' hb' hids
    rcases mem_decInvFirst bid q st.invs i' hi' with hm | ⟨i0, hi0, hibid, heq⟩
    · rcases mem_decBatchRow bid q st.batches b hfind hnd b' hb' with ⟨hbm, -⟩ | hbeq
      · exact hSync i' hm b' hbm hids
      · have hbi : b.batch_id = i'.batch_id := by
          rw [hbeq] at hids
          simpa using hids
        have hs := hSync i' hm b hbmem hbi
        rw [hbeq]
        simp only
        linarith
    · rcases mem_decBatchRow bid q st.batches b hfind hnd b' hb' with ⟨hbm, hbne⟩ | hbeq
      · exact absurd (by rw [hids, heq]; exact hibid) hbne
      · have hs := hSync i0 hi0 b hbmem (hbbid.trans hibid.symm)
        rw [hbeq, heq]
        simp only
        linarith
  · rw [Routes.applyPairDec]
    simp only
    rw [decBatchRow_map_id]
    exact hnd

/-- Helper: the inner order loop preserves the state invariant. -/
theorem order_item_go_StateInv :
    ∀ (ids : List Nat) (st : SState) (rem : ℚ), StateInv st →
      StateInv (Routes.order_item_go st rem ids).1 := by
  intro ids
  induction ids with
  | nil => intro st rem h; simpa [Routes.order_item_go] using h
  | cons bid rest ih =>
    intro st rem h
    by_cases hrem : rem ≤ 0
    · simpa [Routes.order_item_go, if_pos hrem] using h
    · simp only [Routes.order_item_go, if_neg hrem]
      cases hfind : Routes.getBatch bid st.batches with
      | none => simp only [hfind]; exact ih st rem h
      | some b =>
        simp only [hfind]
        have hb0 : 0 ≤ b.current_quantity :=
          h.1 b (List.mem_of_find?_eq_some hfind)
        have hq0 : 0 ≤ min rem b.current_quantity :=
          le_min (le_of_lt (lt_of_not_le hrem)) hb0
        have hstep := StateInv_step st bid (min rem b.current_quantity) b hfind hq0
          (min_le_right _ _) h
        exact ih _ _ hstep

/-- Helper: a successful line-item loop preserves the state invariant. -/
theorem create_order_go_StateInv :
    ∀ (items : List (Nat × ℚ)) (st : SState) (acc : List (Nat × ℚ))
      (st' : SState) (its : List (Nat × ℚ)), StateInv st →
      Routes.create_order_go st items acc = .ok (st', its) → StateInv st' := by
  intro items
  induction items with
  | nil =>
    intro st acc st' its h hrun
    simp only [Routes.create_order_go] at hrun
    injection hrun with h1
    injection h1 with ha hb
    subst ha
    exact h
  | cons it rest ih =>
    intro st acc st' its h hrun
    obtain ⟨p, q⟩ := it
    simp only [Routes.create_order_go] at hrun
    split at hrun
    · simp at hrun
    · exact ih _ _ _ _ (order_item_go_StateInv _ st q h) hrun

/-- C5 (amended): starting from non-negative quantities with every inventory
row holding at least its batch's current quantity (in particular, counters
in sync) and unique batch ids, after `create_order` completes — committed or
rolled back — every batch quantity and every quantity on hand is still
non-negative. -/
theorem create_order_nonneg (st : SState) (items : List (Nat × ℚ))
    (hB : ∀ b ∈ st.batches, 0 ≤ b.current_quantity)
    (hI : ∀ i ∈ st.invs, 0 ≤ i.quantity_on_hand)
    (hSync : ∀ i ∈ st.invs, ∀ b ∈ st.batches, b.batch_id = i.batch_id →
      b.current_quantity ≤ i.quantity_on_hand)
    (hnd : (st.batches.map Batch.batch_id).Nodup) :
    (∀ b ∈ (Routes.create_order st items).1.batches, 0 ≤ b.current_quantity)
      ∧ (∀ i ∈ (Routes.create_order st items).1.invs, 0 ≤ i.quantity_on_hand) := by
  have hinv : StateInv st := ⟨hB, hI, hSync, hnd⟩
  have hres : StateInv (Routes.create_order st items).1 := by
    simp only [Routes.create_order]
    split
    · rename_i st2 its2 heq
      exact create_order_go_StateInv items st [] st2 its2 hinv heq
    · exact hinv
  exact ⟨hres.1, hres.2.1⟩

/-- Witness for the non-negativity theorem: the in-sync lock-step state after
ordering 30 of 100 still has the (committed) batch row non-negative. -/
theorem create_order_nonneg_witness :
    0 ≤ ({ batch_id := 1, product_id := 1, production_date := 0, expiration_date := 5,
           initial_quantity := 100, current_quantity := 70,
           status := BatchStatus.in_stock } : Batch).current_quantity :=
  (create_order_nonneg exStLock [(1, 30)]
      (by norm_num [exStLock, exBatchLock])
      (by norm_num [exStLock, exInvLock])
      (by norm_num [exStLock, exBatchLock, exInvLock])
      (by norm_num [exStLock, exBatchLock])).1 _
    (by norm_num [Routes.create_order, Routes.create_order_go, Routes.order_item_go,
      Routes.routeAvailable, Routes.routeEligible, Routes.getBatch, Routes.expProdLE,
      BackendService.decBatchRow, BackendService.decInvFirstForBatch, exStLock,
      exBatchLock, exInvLock, List.insertionSort, List.orderedInsert])

/-- C8 (counterexample to the claim as stated): the Django
`InventoryService.fulfill_order_item` commits an allocation by decrementing
only `Batch.current_quantity`; the inventory row for the batch keeps its
quantity on hand (100 instead of 100 - 30). -/
theorem fulfill_leaves_inventory_unchanged :
    ((InventoryService.fulfill_order_item 0 1 30 none .fefo exStLock).1).success = true
      ∧ InventoryService.sumTaken
          ((InventoryService.fulfill_order_item 0 1 30 none .fefo exStLock).1).allocations
          = 30
      ∧ ((InventoryService.fulfill_order_item 0 1 30 none .fefo exStLock).2).batches.map
          Batch.current_quantity = [70]
      ∧ ((InventoryService.fulfill_order_item 0 1 30 none .fefo exStLock).2).invs.map
          Inventory.quantity_on_hand = [100]
      ∧ ¬ ((100 : ℚ) = 100 - 30) := by
  have h : InventoryService.fulfill_order_item 0 1 30 none .fefo exStLock
      = ({ success := true, allocated_quantity := 30, shortage := 0,
           allocations := [(exBatchLock, 30)] },
         { batches := [{ batch_id := 1, product_id := 1, production_date := 0,
                         expiration_date := 5, initial_quantity := 100,
                         current_quantity := 70, status := .in_stock }],
           invs := [exInvLock] }) := by
    norm_num [InventoryService.fulfill_order_item, InventoryService.allocate_inventory_fefo,
      InventoryService.get_available_batches_fefo, InventoryService.fefoEligible,
      InventoryService.locationOk, InventoryService.allocate_greedy,
      InventoryService.sumTaken, InventoryService.allocate_quantity_row, exStLock,
      exBatchLock, exInvLock, List.insertionSort, List.orderedInsert]
  refine ⟨by rw [h], ?_, by rw [h]; rfl, by rw [h]; simp [exInvLock], by norm_num⟩
  rw [h]
  norm_num [InventoryService.sumTaken]

/-- Helper: the sweep only appends alerts — the final alert table is the
initial one followed by the created alerts. -/
theorem check_expiry_go_state :
    ∀ (L : List Batch) (S : List Alert) (today : Int),
      (AlertService.check_expiry_go today L S).1
        = S ++ (AlertService.check_expiry_go today L S).2 := by
  intro L
  induction L with
  | nil => intro S today; simp [AlertService.check_expiry_go]
  | cons hd tl ih =>
    intro S today
    by_cases hh : AlertService.hasActiveExpiryAlert S hd.batch_id = true
    · simp only [AlertService.check_expiry_go, if_pos hh]
      exact ih S today
    · simp only [AlertService.check_expiry_go, if_neg hh]
      rw [ih (S ++ [AlertService.mkExpiryAlert today hd]) today]
      simp

/-- Helper: an active alert stays visible when the table grows. -/
theorem hasActive_append (S T : List Alert) (bid : Nat)
    (h : AlertService.hasActiveExpiryAlert S bid = true) :
    AlertService.hasActiveExpiryAlert (S ++ T) bid = true := by
  simp only [AlertService.hasActiveExpiryAlert, List.any_append, Bool.or_eq_true]
  exact Or.inl h

/-- Helper: after one sweep, every swept batch has an active expiry alert. -/
theorem check_expiry_go_covers :
    ∀ (L : List Batch) (S : List Alert) (today : Int), ∀ b ∈ L,
      AlertService.hasActiveExpiryAlert
        (AlertService.check_expiry_go today L S).1 b.batch_id = true := by
  intro L
  induction L with
  | nil => intro S today b hb; simp at hb
  | cons hd tl ih =>
    intro S today b hb
    by_cases hh : AlertService.hasActiveExpiryAlert S hd.batch_id = true
    · simp only [AlertService.check_expiry_go, if_pos hh]
      rcases List.mem_cons.mp hb with rfl | hmem
      · rw [check_expiry_go_state]
        exact hasActive_append _ _ _ hh
      · exact ih S today b hmem
    · simp only [AlertService.check_expiry_go, if_neg hh]
      rcases List.mem_cons.mp hb with rfl | hmem
      · rw [check_expiry_go_state]
        refine hasActive_append _ _ _ ?_
        simp [AlertService.hasActiveExpiryAlert, AlertService.mkExpiryAlert]
      · exact ih (S ++ [AlertService.mkExpiryAlert today hd]) today b hmem

/-- Helper: a sweep over batches that all already carry an active alert
creates nothing and leaves the table unchanged. -/
theorem check_expiry_go_stable :
    ∀ (L : List Batch) (S : List Alert) (today : Int),
      (∀ b ∈ L, AlertService.hasActiveExpiryAlert S b.batch_id = true) →
      AlertService.check_expiry_go today L S = (S, []) := by
  intro L
  induction L with
  | nil => intro S today _; rfl
  | cons hd tl ih =>
    intro S today h
    simp only [AlertService.check_expiry_go, if_pos (h hd (List.mem_cons_self hd tl))]
    exact ih S today fun b hb => h b (List.mem_cons_of_mem hd hb)

/-- Helper: a sweep over alert-free batches with unique ids creates exactly
one alert per batch, in order. -/
theorem check_expiry_go_fresh :
    ∀ (L : List Batch) (S : List Alert) (today : Int),
      (L.map Batch.batch_id).Nodup →
      (∀ b ∈ L, AlertService.hasActiveExpiryAlert S b.batch_id = false) →
      (AlertService.check_expiry_go today L S).2
        = L.map (AlertService.mkExpiryAlert today) := by
  intro L
  induction L with
  | nil => intro S today _ _; rfl
  | cons hd tl ih =>
    intro S today hnd hfresh
    simp only [List.map_cons, List.nodup_cons] at hnd
    have hhd := hfresh hd (List.mem_cons_self hd tl)
    simp only [AlertService.check_expiry_go, hhd, Bool.false_eq_true, if_false,
      List.map_cons]
    rw [ih (S ++ [AlertService.mkExpiryAlert today hd]) today hnd.2]
    intro b hb
    have hS := hfresh b (List.mem_cons_of_mem hd hb)
    have hne : hd.batch_id ≠ b.batch_id := by
      intro heq
      exact hnd.1 (heq ▸ List.mem_map_of_mem Batch.batch_id hb)
    simp [AlertService.hasActiveExpiryAlert, List.any_append,
      AlertService.mkExpiryAlert, hne] at hS ⊢
    exact hS

/-- Helper: a table with no active expiry-warning alerts reports none for
any batch. -/
theorem clean_no_active (S : List Alert)
    (h : ∀ a ∈ S, ¬(a.alert_type = AlertType.expiry_warning
      ∧ a.status = AlertStatus.active)) (bid : Nat) :
    AlertService.hasActiveExpiryAlert S bid = false := by
  rw [AlertService.hasActiveExpiryAlert, List.any_eq_false]
  intro a ha
  have := h a ha
  by_cases ht : a.alert_type = AlertType.expiry_warning
  · have hs : ¬ a.status = AlertStatus.active := fun hs => this ⟨ht, hs⟩
    simp [ht, hs]
  · simp [ht]

/-- Helper: counting the active expiry alerts among the freshly created ones
counts the swept batches with that id. -/
theorem countActive_map_mk :
    ∀ (L : List Batch) (today : Int) (bid : Nat),
      AlertService.countActiveExpiry (L.map (AlertService.mkExpiryAlert today)) bid
        = (L.map Batch.batch_id).count bid := by
  intro L
  induction L with
  | nil => intro today bid; rfl
  | cons hd tl ih =>
    intro today bid
    simp only [AlertService.countActiveExpiry] at ih ⊢
    by_cases hh : hd.batch_id = bid
    · simp [List.filter_cons, List.count_cons, AlertService.mkExpiryAlert, hh, ih today bid]
    · simp [List.filter_cons, List.count_cons, AlertService.mkExpiryAlert, hh, ih today bid]

/-- C9: the expiry sweep is deduplicating and idempotent — running it a
second time over the same unchanged batches creates no alert and leaves the
table unchanged, and starting from a table with no active expiry alerts one
run creates exactly one active expiry alert per expiring batch. -/
theorem check_expiry_alerts_dedup (today days_ahead : Int) (batches : List Batch)
    (alerts0 : List Alert) :
    (AlertService.check_expiry_alerts today days_ahead batches
        (AlertService.check_expiry_alerts today days_ahead batches alerts0).1).2 = []
      ∧ (AlertService.check_expiry_alerts today days_ahead batches
          (AlertService.check_expiry_alerts today days_ahead batches alerts0).1).1
          = (AlertService.check_expiry_alerts today days_ahead batches alerts0).1
      ∧ ((∀ a ∈ alerts0, ¬(a.alert_type = AlertType.expiry_warning
            ∧ a.status = AlertStatus.active)) →
         (batches.map Batch.batch_id).Nodup →
         ∀ bid, AlertService.countActiveExpiry
             (AlertService.check_expiry_alerts today days_ahead batches alerts0).1 bid
           = if bid ∈ (InventoryService.get_expiring_batches today days_ahead
               batches).map Batch.batch_id then 1 else 0) := by
  have hcov : ∀ b ∈ InventoryService.get_expiring_batches today days_ahead batches,
      AlertService.hasActiveExpiryAlert
        (AlertService.check_expiry_alerts today days_ahead batches alerts0).1
        b.batch_id = true := by
    intro b hb
    simp only [AlertService.check_expiry_alerts]
    exact check_expiry_go_covers _ alerts0 today b hb
  have hstable := check_expiry_go_stable
    (InventoryService.get_expiring_batches today days_ahead batches)
    (AlertService.check_expiry_alerts today days_ahead batches alerts0).1 today hcov
  refine ⟨?_, ?_, ?_⟩
  · conv_lhs => rw [AlertService.check_expiry_alerts]
    rw [hstable]
  · conv_lhs => rw [AlertService.check_expiry_alerts]
    rw [hstable]
  · intro hclean hnd bid
    have hfreshS : ∀ b ∈ InventoryService.get_expiring_batches today days_ahead batches,
        AlertService.hasActiveExpiryAlert alerts0 b.batch_id = false :=
      fun b _ => clean_no_active alerts0 hclean b.batch_id
    have h1 : ((batches.filter
        (InventoryService.expiringFilter today days_ahead)).map Batch.batch_id).Nodup :=
      List.Nodup.sublist ((List.filter_sublist _).map _) hnd
    have hndE : ((InventoryService.get_expiring_batches today days_ahead
        batches).map Batch.batch_id).Nodup := by
      simp only [InventoryService.get_expiring_batches]
      exact ((List.perm_insertionSort expLE _).map Batch.batch_id).nodup_iff.mpr h1
    have hcreated := check_expiry_go_fresh
      (InventoryService.get_expiring_batches today days_ahead batches) alerts0 today
      hndE hfreshS
    have hstate := check_expiry_go_state
      (InventoryService.get_expiring_batches today days_ahead batches) alerts0 today
    simp only [AlertService.check_expiry_alerts]
    rw [hstate, hcreated]
    have hsplit : AlertService.countActiveExpiry
        (alerts0 ++ (InventoryService.get_expiring_batches today days_ahead
          batches).map (AlertService.mkExpiryAlert today)) bid
        = AlertService.countActiveExpiry alerts0 bid
          + AlertService.countActiveExpiry
              ((InventoryService.get_expiring_batches today days_ahead batches).map
                (AlertService.mkExpiryAlert today)) bid := by
      simp [AlertService.countActiveExpiry, List.filter_append]
    rw [hsplit]
    have hzero : AlertService.countActiveExpiry alerts0 bid = 0 := by
      simp only [AlertService.countActiveExpiry, List.length_eq_zero]
      rw [List.filter_eq_nil_iff]
      intro a ha
      have hna := hclean a ha
      by_cases ht : a.alert_type = AlertType.expiry_warning
      · have hs : ¬ a.status = AlertStatus.active := fun hs => hna ⟨ht, hs⟩
        simp [ht, hs]
      · simp [ht]
    rw [hzero, countActive_map_mk, Nat.zero_add]
    by_cases hmem : bid ∈ (InventoryService.get_expiring_batches today days_ahead
        batches).map Batch.batch_id
    · rw [if_pos hmem]
      exact List.count_eq_one_of_mem hndE hmem
    · rw [if_neg hmem]
      exact List.count_eq_zero.mpr hmem

/-- Witness for the dedup theorem on a single expiring batch and an empty
alert table: the second run creates nothing and the batch carries exactly
one active alert after the first run. -/
theorem check_expiry_alerts_dedup_witness :
    (AlertService.check_expiry_alerts 0 7 [exBatchExp]
        (AlertService.check_expiry_alerts 0 7 [exBatchExp] []).1).2 = []
      ∧ AlertService.countActiveExpiry
          (AlertService.check_expiry_alerts 0 7 [exBatchExp] []).1 1
          = if 1 ∈ (InventoryService.get_expiring_batches 0 7 [exBatchExp]).map
              Batch.batch_id then 1 else 0 :=
  ⟨(check_expiry_alerts_dedup 0 7 [exBatchExp] []).1,
   (check_expiry_alerts_dedup 0 7 [exBatchExp] []).2.2 (by simp)
     (by simp [exBatchExp]) 1⟩

end Claims
